import Mathlib

/-!
Verification of the device-inventory synchronization program
(`better_device_information.py`).

The Python program is shallowly embedded: JSON dictionaries become
structures with `Option`-valued fields (`none` models an absent or null
field), Python string truthiness is modelled explicitly, the three
database tables become lists of rows, and the SQLAlchemy session with its
single commit/rollback becomes an `Except`-valued computation over a
working copy of the database, with an optional injected fault point
modelling "some statement in the try-block raised".
-/

set_option maxHeartbeats 1000000

namespace DeviceSync

/-- Auxiliary-usage descriptor attached to a raw device
(`avbox_info = {usage: ..., devices: [...]}`). -/
structure AvboxInfo where
  usage : Option String
  devices : List String
deriving Repr, DecidableEq

/-- A raw device record as reported by the `/v0/devices` endpoint.
`none` models an absent (or JSON-null) field. -/
structure RawDevice where
  device_type : Option String := none
  device_subtype : Option String := none
  device_address : Option String := none
  device_id : Option String := none
  model : Option String := none
  device_skus : Option (List String) := none
  hostname : Option String := none
  os_version : Option String := none
  host_city : Option String := none
  host_country : Option String := none
  device_note : Option String := none
  avbox_info : Option AvboxInfo := none
deriving Repr, DecidableEq

/-- One team inside a team-snapshot device entry (`{"team_name": ...}`). -/
structure Team where
  team_name : String
deriving Repr, DecidableEq

/-- One entry of the team snapshot's `devices` list. -/
structure TeamEntry where
  device_address : Option String := none
  teams : List Team := []
deriving Repr, DecidableEq

/-- The team-membership snapshot (`/v0/teams/devices`). -/
structure TeamsList where
  devices : List TeamEntry
deriving Repr, DecidableEq

/-- The device snapshot (`/v0/devices`). -/
structure Snapshot where
  devices : List RawDevice
deriving Repr, DecidableEq

/-- Python truthiness of an optional string: `None` and `""` are falsy. -/
def truthyS : Option String → Bool
  | none => false
  | some s => decide (s ≠ "")

/-- Python `a or b` on optional strings: `b` when `a` is falsy. -/
def orS (a b : Option String) : Option String :=
  if truthyS a then a else b

/-- Character-list prefix test. -/
def charsPrefixOf : List Char → List Char → Bool
  | [], _ => true
  | _ :: _, [] => false
  | a :: as, b :: bs => decide (a = b) && charsPrefixOf as bs

/-- Does `needle` occur as a prefix of some suffix of the list? -/
def strContainsAux (needle : List Char) : List Char → Bool
  | [] => charsPrefixOf needle []
  | c :: cs => charsPrefixOf needle (c :: cs) || strContainsAux needle cs

/-- Python `needle in hay` substring test. -/
def strContains (hay needle : String) : Bool :=
  strContainsAux needle.data hay.data

/-- Python `str.lower()` as a character-wise map. -/
def strLower (s : String) : String :=
  ⟨s.data.map Char.toLower⟩

/-- `get_effective_device_type` (source lines 124-129): sub-type when truthy,
else `"browser"` for chrome/firefox/safari (case-insensitive), else the raw
type (defaulting to `""` when absent). -/
def get_effective_device_type (device : RawDevice) : String :=
  if truthyS device.device_subtype then device.device_subtype.getD ""
  else
    let device_type := device.device_type.getD ""
    if strLower device_type ∈ ["chrome", "firefox", "safari"] then "browser"
    else device_type

/-- `get_unique_device_id` (source lines 131-134). -/
def get_unique_device_id (device : RawDevice) : Option String :=
  if get_effective_device_type device = "browser" then device.device_address
  else device.device_id

/-- `get_device_teams` (source lines 136-144): first-appearance
deduplicated team names of every entry whose address matches. -/
def get_device_teams (device_address : Option String) (teams_list : Option TeamsList) :
    List String :=
  match teams_list with
  | none => []
  | some tl =>
    if tl.devices = [] then []
    else
      tl.devices.foldl
        (fun acc entry =>
          if device_address = entry.device_address then
            entry.teams.foldl
              (fun acc2 team =>
                if team.team_name ∈ acc2 then acc2 else acc2 ++ [team.team_name])
              acc
          else acc)
        []

/-- The normalized inventory row produced by `device_details_for_db`
(and the shape of a `device_inventory` row). -/
structure InventoryData where
  device_type : String
  model : Option String := none
  device_skus : Option String := none
  udid : Option String := none
  host_name : Option String := none
  os_version : Option String := none
  location : String := ""
  device_notes : Option String := none
  teams : String := ""
  is_avbox : Bool := false
deriving Repr, DecidableEq

/-- `device_details_for_db` (source lines 146-160). -/
def device_details_for_db (device : RawDevice) (teams_list : Option TeamsList) :
    InventoryData :=
  let device_teams := get_device_teams device.device_address teams_list
  { device_type := get_effective_device_type device
    model := device.model
    device_skus := device.device_skus.map (String.intercalate ", ")
    udid := get_unique_device_id device
    host_name := device.hostname
    os_version := device.os_version
    location := device.host_city.getD "" ++ ", " ++ device.host_country.getD ""
    device_notes := device.device_note
    teams := String.intercalate ", " device_teams
    is_avbox := device.avbox_info.isSome }

/-- `safe_get_device` (source lines 162-164). -/
def safe_get_device (device_list : List String) (index : Nat) : Option String :=
  device_list.get? index

/-- A partial box bundle as accumulated in the `AVBoxs` dictionary.
Each field other than `dut` is `none` while the corresponding dictionary
key has not been written; the inner `Option` is the (possibly null)
stored value. -/
structure Bundle where
  dut : String
  device_type : Option (Option String) := none
  device_notes : Option (Option String) := none
  camera_device : Option (Option String) := none
  control : Option (Option String) := none
deriving Repr, DecidableEq

/-- First value bound to `k` in an insertion-ordered dictionary. -/
def lookupKey : List (String × Bundle) → String → Option Bundle
  | [], _ => none
  | p :: rest, k => if p.1 = k then some p.2 else lookupKey rest k

/-- Apply `f` to the value bound to `k`, keeping insertion order. -/
def updateAssoc (l : List (String × Bundle)) (k : String) (f : Bundle → Bundle) :
    List (String × Bundle) :=
  l.map (fun p => if p.1 = k then (p.1, f p.2) else p)

/-- `add_avbox_mapping_entry` (source lines 166-183), acting on the
`AVBoxs` dictionary represented as an insertion-ordered association
list. -/
def add_avbox_mapping_entry (device : RawDevice) (AVBoxs : List (String × Bundle)) :
    List (String × Bundle) :=
  match device.avbox_info with
  | none => AVBoxs
  | some avbox_info =>
    if truthyS avbox_info.usage = false then AVBoxs
    else if avbox_info.devices = [] then AVBoxs
    else
      let usage := avbox_info.usage.getD ""
      let dut_address : Option String :=
        if strContains usage "device_under_test" then device.device_address
        else if avbox_info.devices = [] then none
        else safe_get_device avbox_info.devices 0
      if truthyS dut_address = false then AVBoxs
      else
        let key := dut_address.getD ""
        let AVBoxs1 :=
          if (lookupKey AVBoxs key).isSome then AVBoxs
          else AVBoxs ++ [(key, { dut := key })]
        updateAssoc AVBoxs1 key (fun b =>
          if strContains usage "device_under_test" then
            { b with
                device_type := some (orS device.device_subtype device.device_type)
                device_notes := some device.device_note }
          else if strContains usage "camera_device" then
            { b with camera_device := some device.device_address }
          else if strContains usage "control" then
            { b with control := some device.device_address }
          else b)

/-- The `AVBoxs_data` accumulation loop of `main` (source lines 199-201). -/
def computeAVBoxs (devices : List RawDevice) : List (String × Bundle) :=
  devices.foldl
    (fun acc device =>
      if device.avbox_info.isSome then add_avbox_mapping_entry device acc else acc)
    []

/-- `added_ids = api_unique_ids - db_unique_ids` (source line 205). -/
def compute_added_ids (api_unique_ids db_unique_ids : Finset (Option String)) :
    Finset (Option String) :=
  api_unique_ids \ db_unique_ids

/-- `removed_ids = db_unique_ids - db_unique_ids` (source line 206),
transcribed exactly as written. -/
def compute_removed_ids (api_unique_ids db_unique_ids : Finset (Option String)) :
    Finset (Option String) :=
  db_unique_ids \ db_unique_ids

/-- A row of the `avbox_mapping` table. -/
structure AVBoxRow where
  device_type : Option String := none
  device_notes : Option String := none
  dut : String
  camera_device : Option String := none
  control : Option String := none
deriving Repr, DecidableEq

/-- The JSON `details` payload of a ledger entry: model, type and, when a
box mapping was found, the companion camera/control addresses. -/
structure LedgerDetails where
  model : Option String := none
  type : String
  companions : Option (Option String × Option String) := none
deriving Repr, DecidableEq

/-- A row of the append-only `device_ledger` table. -/
structure LedgerRow where
  udid : Option String
  status : String
  details : LedgerDetails
deriving Repr, DecidableEq

/-- The persisted database: the three tables, each in insertion order. -/
structure DB where
  inventory : List InventoryData
  avbox : List AVBoxRow
  ledger : List LedgerRow
deriving Repr, DecidableEq

/-- The transaction-local working copy of the database together with a
count of the mutating statements executed so far (used to inject a
fault at a chosen statement). -/
structure SessionState where
  db : DB
  opCount : Nat
deriving Repr, DecidableEq

/-- Advance past one mutating statement; raises (`.error`) exactly when the
injected fault point is reached. -/
def tick (faultAt : Option Nat) (s : SessionState) : Except Unit SessionState :=
  if faultAt = some s.opCount then .error ()
  else .ok { s with opCount := s.opCount + 1 }

/-- Overwrite every field of the first row whose `udid` matches, else
append a new row — the upsert of source lines 227-231, with the
session's autoflush making pending inserts visible to the query. -/
def upsert_inventory : List InventoryData → InventoryData → List InventoryData
  | [], data => [data]
  | r :: rs, data =>
    if r.udid = data.udid then data :: rs else r :: upsert_inventory rs data

/-- The guard of source lines 222-223: the device reaches the inventory
upsert iff `avbox_info` is absent or its `usage` equals
`"device_under_test"` exactly. -/
def device_included_in_inventory (device : RawDevice) : Bool :=
  match device.avbox_info with
  | none => true
  | some avbox_info => decide (avbox_info.usage = some "device_under_test")

/-- Build a fresh `avbox_mapping` row from a bundle dictionary
(`AVBoxMapping(**avbox_map_data)`): absent keys become null columns. -/
def bundleToRow (b : Bundle) : AVBoxRow :=
  { dut := b.dut
    device_type := b.device_type.join
    device_notes := b.device_notes.join
    camera_device := b.camera_device.join
    control := b.control.join }

/-- `for key, value in avbox_map_data.items(): setattr(existing_map, key, value)`:
only the keys present in the bundle dictionary are overwritten. -/
def applyBundle (r : AVBoxRow) (b : Bundle) : AVBoxRow :=
  { dut := b.dut
    device_type := match b.device_type with | some v => v | none => r.device_type
    device_notes := match b.device_notes with | some v => v | none => r.device_notes
    camera_device := match b.camera_device with | some v => v | none => r.camera_device
    control := match b.control with | some v => v | none => r.control }

/-- The box-mapping upsert of source lines 240-245: update the first row
whose `dut` matches, else append a fresh row. -/
def upsert_avbox : List AVBoxRow → String → Bundle → List AVBoxRow
  | [], _, b => [bundleToRow b]
  | r :: rs, k, b =>
    if r.dut = k then applyBundle r b :: rs else r :: upsert_avbox rs k b

/-- Remove the first inventory row whose `udid` matches (`session.delete`). -/
def removeInventoryRow (inv : List InventoryData) (uid : Option String) :
    List InventoryData :=
  inv.eraseP (fun r => decide (r.udid = uid))

/-- One iteration of the removal loop (source lines 211-218): `.one()`
raises unless exactly one row matches; then a `removed` ledger entry is
written and the row is deleted. -/
def removed_step (faultAt : Option Nat) (s : SessionState) (uid : Option String) :
    Except Unit SessionState :=
  match s.db.inventory.filter (fun r => decide (r.udid = uid)) with
  | [row] =>
    let avbox_map := (s.db.avbox.filter (fun r => decide (some r.dut = uid))).head?
    let details : LedgerDetails :=
      { model := row.model
        type := row.device_type
        companions := avbox_map.map (fun a => (a.camera_device, a.control)) }
    (tick faultAt s).bind (fun s1 =>
      let s2 := { s1 with db := { s1.db with
        ledger := s1.db.ledger ++ [{ udid := uid, status := "removed", details := details }] } }
      (tick faultAt s2).bind (fun s3 =>
        .ok { s3 with db := { s3.db with
          inventory := removeInventoryRow s3.db.inventory uid } }))
  | _ => .error ()

/-- One iteration of the inventory upsert loop (source lines 221-238).
A device passing the inclusion guard is normalized and upserted; when
its identifier is in `added_ids` an `added` ledger entry is written,
where the lookup `AVBoxs_data.get(device['device_address'])` raises a
`KeyError` when the device has no `device_address` field. -/
def inventory_step (tl : Option TeamsList) (AVBoxs_data : List (String × Bundle))
    (added_ids : Option String → Bool) (faultAt : Option Nat)
    (s : SessionState) (device : RawDevice) : Except Unit SessionState :=
  if device_included_in_inventory device then
    let data := device_details_for_db device tl
    (tick faultAt s).bind (fun s1 =>
      let s2 := { s1 with db := { s1.db with
        inventory := upsert_inventory s1.db.inventory data } }
      if added_ids data.udid then
        match device.device_address with
        | none => .error ()
        | some addr =>
          let avbox_map := lookupKey AVBoxs_data addr
          let details : LedgerDetails :=
            { model := device.model
              type := get_effective_device_type device
              companions := avbox_map.map (fun b => (b.camera_device.join, b.control.join)) }
          (tick faultAt s2).bind (fun s3 =>
            .ok { s3 with db := { s3.db with
              ledger := s3.db.ledger ++ [{ udid := data.udid, status := "added", details := details }] } })
      else .ok s2)
  else .ok s

/-- One iteration of the box-mapping upsert loop (source lines 240-245). -/
def avbox_step (faultAt : Option Nat) (s : SessionState) (entry : String × Bundle) :
    Except Unit SessionState :=
  (tick faultAt s).bind (fun s1 =>
    .ok { s1 with db := { s1.db with
      avbox := upsert_avbox s1.db.avbox entry.1 entry.2 } })

/-- The body of `main`'s try-block (source lines 190-247) acting on the
transaction-local state: early return when the device snapshot is
missing or empty; otherwise box grouping, the (degenerate) diff,
removal loop, inventory upsert loop and box-mapping upsert loop.
`.error` models an exception escaping to the handler. -/
def mainBody (db0 : DB) (snap : Option Snapshot) (tl : Option TeamsList)
    (faultAt : Option Nat) : Except Unit SessionState :=
  match snap with
  | none => .ok { db := db0, opCount := 0 }
  | some sn =>
    if sn.devices = [] then .ok { db := db0, opCount := 0 }
    else
      let AVBoxs_data := computeAVBoxs sn.devices
      let api_unique_ids := sn.devices.map get_unique_device_id
      let db_unique_ids := db0.inventory.map (fun r => r.udid)
      let added_ids : Option String → Bool :=
        fun uid => decide (uid ∈ api_unique_ids ∧ uid ∉ db_unique_ids)
      let removed_ids := db_unique_ids.filter (fun uid => decide (uid ∉ db_unique_ids))
      (removed_ids.foldlM (removed_step faultAt) { db := db0, opCount := 0 }).bind
        (fun s1 =>
          (sn.devices.foldlM (inventory_step tl AVBoxs_data added_ids faultAt) s1).bind
            (fun s2 => AVBoxs_data.foldlM (avbox_step faultAt) s2))

/-- One full synchronization run (source lines 188-294): on success the
working copy is committed; on any raised fault the handler rolls the
transaction back, so the persisted state is the pre-run state. -/
def mainRun (db0 : DB) (snap : Option Snapshot) (tl : Option TeamsList)
    (faultAt : Option Nat) : DB :=
  match mainBody db0 snap tl faultAt with
  | .ok s => s.db
  | .error _ => db0

/-- Spec-side description for the Team Annotator: deduplicate a list of
names keeping the order of first appearance. -/
def dedupFirst (l : List String) : List String :=
  l.foldl (fun acc x => if x ∈ acc then acc else acc ++ [x]) []

/-- The pure inventory effect of one iteration of the upsert loop: upsert
the normalized record when the device passes the inclusion guard. -/
def gstep (tl : Option TeamsList) (inv : List InventoryData) (device : RawDevice) :
    List InventoryData :=
  if device_included_in_inventory device then
    upsert_inventory inv (device_details_for_db device tl)
  else inv

/-- The pure box-mapping effect of one iteration of the box upsert loop. -/
def astep (rows : List AVBoxRow) (entry : String × Bundle) : List AVBoxRow :=
  upsert_avbox rows entry.1 entry.2

/-- First `avbox_mapping` row whose `dut` column matches
(`filter_by(dut=...).first()`). -/
def firstDut : List AVBoxRow → String → Option AVBoxRow
  | [], _ => none
  | r :: rs, k => if r.dut = k then some r else firstDut rs k

/-!  Theorems.  -/

/-- C1: the Snapshot Diff Engine is supposed to compute
`added = snapshot_ids − persisted_ids` and `removed = persisted_ids −
snapshot_ids`; the code instead computes `removed_ids = db_unique_ids -
db_unique_ids`, which is always empty.  At the documented example
(persisted `{A,B,C}`, snapshot `{B,C,D}`) the code yields `added = {D}`
as specified but `removed = ∅` instead of `{A}`. -/
theorem diff_engine_removed_degenerate :
    compute_added_ids {some "B", some "C", some "D"} {some "A", some "B", some "C"}
      = {some "D"} ∧
    compute_removed_ids {some "B", some "C", some "D"} {some "A", some "B", some "C"}
      = (∅ : Finset (Option String)) ∧
    compute_removed_ids {some "B", some "C", some "D"} {some "A", some "B", some "C"}
      ≠ {some "A"} := by
  refine ⟨?_, ?_, ?_⟩ <;> decide

/-- Folding the team-collection loop equals inserting the matching
entries' team names one by one into the accumulator. -/
theorem teams_foldl_eq (addr : Option String) :
    ∀ (entries : List TeamEntry) (acc : List String),
      entries.foldl
        (fun acc entry =>
          if addr = entry.device_address then
            entry.teams.foldl
              (fun acc2 team =>
                if team.team_name ∈ acc2 then acc2 else acc2 ++ [team.team_name])
              acc
          else acc)
        acc
      = ((entries.filter (fun e => decide (addr = e.device_address))).flatMap
            (fun e => e.teams.map (fun t => t.team_name))).foldl
          (fun acc x => if x ∈ acc then acc else acc ++ [x]) acc := by
  intro entries
  induction entries with
  | nil => intro acc; rfl
  | cons e rest ih =>
    intro acc
    by_cases h : addr = e.device_address
    · have hfe : List.filter (fun x => decide (addr = x.device_address)) (e :: rest)
          = e :: List.filter (fun x => decide (addr = x.device_address)) rest :=
        List.filter_cons_of_pos (by simpa using h)
      rw [List.foldl_cons, if_pos h, ih, hfe, List.flatMap_cons, List.foldl_append,
        List.foldl_map]
    · have hfe : List.filter (fun x => decide (addr = x.device_address)) (e :: rest)
          = List.filter (fun x => decide (addr = x.device_address)) rest :=
        List.filter_cons_of_neg (by simpa using h)
      rw [List.foldl_cons, if_neg h, ih, hfe]

/-- C7: the Team Annotator returns the team names of every matching
entry, deduplicated in order of first appearance, and returns the empty
collection (without raising) when the team snapshot is absent or its
device list is missing/empty; on the documented example (two entries for
the same address with teams `["A","B"]` and `["B","C"]`) it yields
`["A","B","C"]`. -/
theorem team_annotator_spec :
    (∀ addr, get_device_teams addr none = []) ∧
    (∀ addr (tl : TeamsList), tl.devices = [] → get_device_teams addr (some tl) = []) ∧
    (∀ addr (tl : TeamsList),
      get_device_teams addr (some tl) =
        dedupFirst ((tl.devices.filter (fun e => decide (addr = e.device_address))).flatMap
          (fun e => e.teams.map (fun t => t.team_name)))) ∧
    get_device_teams (some "X")
        (some ⟨[⟨some "X", [⟨"A"⟩, ⟨"B"⟩]⟩, ⟨some "X", [⟨"B"⟩, ⟨"C"⟩]⟩]⟩)
      = ["A", "B", "C"] := by
  refine ⟨fun _ => rfl, fun addr tl h => by simp [get_device_teams, h], ?_, by decide⟩
  intro addr tl
  unfold get_device_teams dedupFirst
  by_cases h : tl.devices = []
  · simp [h]
  · simp only [if_neg h]
    exact teams_foldl_eq addr tl.devices []

/-- C8: a device's unique identifier is its network address exactly when
its effective category is `"browser"`, and its `device_id` otherwise;
the effective category is the sub-category when that is present and
non-empty, else `"browser"` when the raw category is chrome, firefox or
safari case-insensitively, else the raw category unchanged. -/
theorem identity_resolver_spec :
    (∀ (d : RawDevice) (s : String), d.device_subtype = some s → s ≠ "" →
      get_effective_device_type d = s) ∧
    (∀ d : RawDevice, truthyS d.device_subtype = false →
      strLower (d.device_type.getD "") ∈ ["chrome", "firefox", "safari"] →
      get_effective_device_type d = "browser") ∧
    (∀ d : RawDevice, truthyS d.device_subtype = false →
      strLower (d.device_type.getD "") ∉ ["chrome", "firefox", "safari"] →
      get_effective_device_type d = d.device_type.getD "") ∧
    (∀ d : RawDevice, get_effective_device_type d = "browser" →
      get_unique_device_id d = d.device_address) ∧
    (∀ d : RawDevice, get_effective_device_type d ≠ "browser" →
      get_unique_device_id d = d.device_id) := by
  refine ⟨?_, ?_, ?_, ?_, ?_⟩
  · intro d s hs hne
    simp [get_effective_device_type, truthyS, hs, hne]
  · intro d hf hmem
    simp [get_effective_device_type, hf, hmem]
  · intro d hf hmem
    simp [get_effective_device_type, hf, hmem]
  · intro d hb
    simp [get_unique_device_id, hb]
  · intro d hb
    simp [get_unique_device_id, hb]

/-- Witness for C7 at concrete inputs: the absent-snapshot case, the
empty-device-list case and the dedup refinement at a concrete snapshot. -/
theorem team_annotator_spec_witness :
    get_device_teams (some "X") none = [] ∧
    get_device_teams (some "X") (some ⟨[]⟩) = [] ∧
    get_device_teams none (some ⟨[⟨none, [⟨"A"⟩]⟩]⟩) =
      dedupFirst ((([⟨none, [⟨"A"⟩]⟩] : List TeamEntry).filter
          (fun e => decide ((none : Option String) = e.device_address))).flatMap
        (fun e => e.teams.map (fun t => t.team_name))) :=
  ⟨team_annotator_spec.1 (some "X"),
   team_annotator_spec.2.1 (some "X") ⟨[]⟩ rfl,
   team_annotator_spec.2.2.1 none ⟨[⟨none, [⟨"A"⟩]⟩]⟩⟩

/-- Witness for C8 at concrete devices: a sub-typed device, a Chrome
browser, a plain iOS device, and the two unique-id cases. -/
theorem identity_resolver_spec_witness :
    get_effective_device_type { device_type := some "Chrome", device_subtype := some "tablet" } = "tablet" ∧
    get_effective_device_type { device_type := some "Chrome" } = "browser" ∧
    get_effective_device_type { device_type := some "ios" } = "ios" ∧
    get_unique_device_id { device_type := some "safari", device_address := some "addr1", device_id := some "id1" } = some "addr1" ∧
    get_unique_device_id { device_type := some "ios", device_address := some "addr1", device_id := some "id1" } = some "id1" :=
  ⟨identity_resolver_spec.1 _ "tablet" rfl (by decide),
   identity_resolver_spec.2.1 _ (by decide) (by decide),
   identity_resolver_spec.2.2.1 _ (by decide) (by decide),
   identity_resolver_spec.2.2.2.1 _ (by decide),
   identity_resolver_spec.2.2.2.2 _ (by decide)⟩

/-!  Box Grouper lemmas.  -/

theorem truthyS_some_of_ne {s : String} (h : s ≠ "") : truthyS (some s) = true := by
  simp [truthyS, h]

theorem lookupKey_updateAssoc_self (l : List (String × Bundle)) (k : String)
    (f : Bundle → Bundle) :
    lookupKey (updateAssoc l k f) k = (lookupKey l k).map f := by
  induction l with
  | nil => rfl
  | cons p rest ih =>
    by_cases h : p.1 = k
    · simp [updateAssoc, lookupKey, h]
    · simpa [updateAssoc, lookupKey, h] using ih

theorem lookupKey_append_self (l : List (String × Bundle)) (k : String) (b : Bundle)
    (h : lookupKey l k = none) :
    lookupKey (l ++ [(k, b)]) k = some b := by
  induction l with
  | nil => simp [lookupKey]
  | cons p rest ih =>
    by_cases hp : p.1 = k
    · simp [lookupKey, hp] at h
    · have h' : lookupKey rest k = none := by
        simpa [lookupKey, hp] using h
      simpa [lookupKey, hp] using ih h'

theorem strContains_dut_dut : strContains "device_under_test" "device_under_test" = true := by
  decide

theorem strContains_ne_empty {u : String}
    (h : strContains u "device_under_test" = true) : u ≠ "" := by
  intro he
  rw [he] at h
  exact absurd h (by decide)

/-- Shared helper: a device whose auxiliary usage is truthy and contains
`device_under_test`, with a non-empty `devices` list and a non-empty own
address `A`, produces (or updates) the bundle keyed by `A`, setting its
category and note from this device. -/
theorem add_avbox_dut_sets_fields (device : RawDevice) (boxes : List (String × Bundle))
    (info : AvboxInfo) (u A : String)
    (hinfo : device.avbox_info = some info)
    (husage : info.usage = some u)
    (hsub : strContains u "device_under_test" = true)
    (hdevs : info.devices ≠ [])
    (haddr : device.device_address = some A) (hA : A ≠ "") :
    ∃ b, lookupKey (add_avbox_mapping_entry device boxes) A = some b ∧
      b.device_type = some (orS device.device_subtype device.device_type) ∧
      b.device_notes = some device.device_note := by
  have hu : u ≠ "" := strContains_ne_empty hsub
  by_cases hlook : (lookupKey boxes A).isSome
  · obtain ⟨b0, hb0⟩ := Option.isSome_iff_exists.mp hlook
    refine ⟨{ b0 with
              device_type := some (orS device.device_subtype device.device_type),
              device_notes := some device.device_note }, ?_, rfl, rfl⟩
    simp [add_avbox_mapping_entry, hinfo, husage, truthyS_some_of_ne hu, haddr,
      truthyS_some_of_ne hA, hsub, hdevs, hb0, lookupKey_updateAssoc_self]
  · have hnone : lookupKey boxes A = none := by
      cases hv : lookupKey boxes A
      · rfl
      · rw [hv] at hlook; simp at hlook
    refine ⟨{ dut := A,
              device_type := some (orS device.device_subtype device.device_type),
              device_notes := some device.device_note }, ?_, rfl, rfl⟩
    simp [add_avbox_mapping_entry, hinfo, husage, truthyS_some_of_ne hu, haddr,
      truthyS_some_of_ne hA, hsub, hdevs, hnone, lookupKey_updateAssoc_self,
      lookupKey_append_self boxes A { dut := A } hnone]

/-- Shared helper: the grouper skips a device whose auxiliary info has a
falsy `usage` or an empty `devices` list. -/
theorem add_avbox_skip (device : RawDevice) (boxes : List (String × Bundle))
    (info : AvboxInfo) (hinfo : device.avbox_info = some info)
    (h : truthyS info.usage = false ∨ info.devices = []) :
    add_avbox_mapping_entry device boxes = boxes := by
  rcases h with h | h
  · simp [add_avbox_mapping_entry, hinfo, h]
  · simp [add_avbox_mapping_entry, hinfo, h]

theorem strContains_cam_dut : strContains "camera_device" "device_under_test" = false := by
  decide

theorem strContains_cam_cam : strContains "camera_device" "camera_device" = true := by
  decide

theorem strContains_ctl_dut : strContains "control" "device_under_test" = false := by
  decide

theorem strContains_ctl_cam : strContains "control" "camera_device" = false := by
  decide

theorem strContains_ctl_ctl : strContains "control" "control" = true := by
  decide

theorem add_avbox_dutrec_nil (dut : RawDevice) (X : String) (dutDevs : List String)
    (hdut : dut.avbox_info = some ⟨some "device_under_test", dutDevs⟩)
    (hdevs : dutDevs ≠ []) (haddr : dut.device_address = some X) (hX : X ≠ "") :
    add_avbox_mapping_entry dut [] =
      [(X, { dut := X,
             device_type := some (orS dut.device_subtype dut.device_type),
             device_notes := some dut.device_note })] := by
  simp [add_avbox_mapping_entry, hdut, hdevs, haddr, strContains_dut_dut,
    truthyS_some_of_ne hX, truthyS_some_of_ne (s := "device_under_test") (by decide),
    lookupKey, updateAssoc]

theorem add_avbox_dutrec_one (dut : RawDevice) (X : String) (dutDevs : List String)
    (b : Bundle) (hdut : dut.avbox_info = some ⟨some "device_under_test", dutDevs⟩)
    (hdevs : dutDevs ≠ []) (haddr : dut.device_address = some X) (hX : X ≠ "") :
    add_avbox_mapping_entry dut [(X, b)] =
      [(X, { b with
             device_type := some (orS dut.device_subtype dut.device_type),
             device_notes := some dut.device_note })] := by
  simp [add_avbox_mapping_entry, hdut, hdevs, haddr, strContains_dut_dut,
    truthyS_some_of_ne hX, truthyS_some_of_ne (s := "device_under_test") (by decide),
    lookupKey, updateAssoc]

theorem add_avbox_camera_nil (cam : RawDevice) (X : String)
    (hcam : cam.avbox_info = some ⟨some "camera_device", [X]⟩) (hX : X ≠ "") :
    add_avbox_mapping_entry cam [] =
      [(X, { dut := X, camera_device := some cam.device_address })] := by
  simp [add_avbox_mapping_entry, hcam, strContains_cam_dut, strContains_cam_cam,
    truthyS_some_of_ne hX, truthyS_some_of_ne (s := "camera_device") (by decide),
    safe_get_device, lookupKey, updateAssoc]

theorem add_avbox_camera_one (cam : RawDevice) (X : String) (b : Bundle)
    (hcam : cam.avbox_info = some ⟨some "camera_device", [X]⟩) (hX : X ≠ "") :
    add_avbox_mapping_entry cam [(X, b)] =
      [(X, { b with camera_device := some cam.device_address })] := by
  simp [add_avbox_mapping_entry, hcam, strContains_cam_dut, strContains_cam_cam,
    truthyS_some_of_ne hX, truthyS_some_of_ne (s := "camera_device") (by decide),
    safe_get_device, lookupKey, updateAssoc]

theorem add_avbox_control_nil (ctl : RawDevice) (X : String)
    (hctl : ctl.avbox_info = some ⟨some "control", [X]⟩) (hX : X ≠ "") :
    add_avbox_mapping_entry ctl [] =
      [(X, { dut := X, control := some ctl.device_address })] := by
  simp [add_avbox_mapping_entry, hctl, strContains_ctl_dut, strContains_ctl_cam,
    strContains_ctl_ctl, truthyS_some_of_ne hX,
    truthyS_some_of_ne (s := "control") (by decide),
    safe_get_device, lookupKey, updateAssoc]

theorem add_avbox_control_one (ctl : RawDevice) (X : String) (b : Bundle)
    (hctl : ctl.avbox_info = some ⟨some "control", [X]⟩) (hX : X ≠ "") :
    add_avbox_mapping_entry ctl [(X, b)] =
      [(X, { b with control := some ctl.device_address })] := by
  simp [add_avbox_mapping_entry, hctl, strContains_ctl_dut, strContains_ctl_cam,
    strContains_ctl_ctl, truthyS_some_of_ne hX,
    truthyS_some_of_ne (s := "control") (by decide),
    safe_get_device, lookupKey, updateAssoc]

/-- C4 counterexample: three records of the shapes named by the claim —
`usage=device_under_test, address=X` (whose auxiliary `devices` subfield
is empty), `usage=camera_device, devices=[X]`, `usage=control,
devices=[X]`.  The grouper skips the device-under-test record (line 168
requires a truthy `devices` subfield), so the bundle for `X` carries the
companion addresses but not the category/note of the
device-under-test record, contradicting the claim. -/
theorem box_grouping_order_cex :
    lookupKey
        (computeAVBoxs
          [{ device_address := some "X", device_type := some "phone",
             device_note := some "note1",
             avbox_info := some ⟨some "device_under_test", []⟩ },
           { device_address := some "CAM",
             avbox_info := some ⟨some "camera_device", ["X"]⟩ },
           { device_address := some "CTL",
             avbox_info := some ⟨some "control", ["X"]⟩ }])
        "X"
      = some { dut := "X", device_type := none, device_notes := none,
               camera_device := some (some "CAM"),
               control := some (some "CTL") } := by
  decide

/-- C4 (amended): for three raw records — a device-under-test record
with address `X` (non-empty) and a non-empty auxiliary `devices` list, a
camera record with `devices=[X]` and a control record with
`devices=[X]` — every permutation yields the bundle keyed by `X` with
category and note from the device-under-test record and both companion
addresses from the other two. -/
theorem box_grouping_order_amended (dut cam ctl : RawDevice) (l : List RawDevice)
    (X : String) (dutDevs : List String)
    (hdut : dut.avbox_info = some ⟨some "device_under_test", dutDevs⟩)
    (hdevs : dutDevs ≠ [])
    (haddr : dut.device_address = some X) (hX : X ≠ "")
    (hcam : cam.avbox_info = some ⟨some "camera_device", [X]⟩)
    (hctl : ctl.avbox_info = some ⟨some "control", [X]⟩)
    (hl : l = [dut, cam, ctl] ∨ l = [dut, ctl, cam] ∨ l = [cam, dut, ctl] ∨
      l = [cam, ctl, dut] ∨ l = [ctl, dut, cam] ∨ l = [ctl, cam, dut]) :
    lookupKey (computeAVBoxs l) X =
      some { dut := X,
             device_type := some (orS dut.device_subtype dut.device_type),
             device_notes := some dut.device_note,
             camera_device := some cam.device_address,
             control := some ctl.device_address } := by
  have hD0 := add_avbox_dutrec_nil dut X dutDevs hdut hdevs haddr hX
  have hD1 := fun b => add_avbox_dutrec_one dut X dutDevs b hdut hdevs haddr hX
  have hC0 := add_avbox_camera_nil cam X hcam hX
  have hC1 := fun b => add_avbox_camera_one cam X b hcam hX
  have hK0 := add_avbox_control_nil ctl X hctl hX
  have hK1 := fun b => add_avbox_control_one ctl X b hctl hX
  rcases hl with hl | hl | hl | hl | hl | hl <;> subst hl
  · rw [show computeAVBoxs [dut, cam, ctl]
        = add_avbox_mapping_entry ctl (add_avbox_mapping_entry cam
            (add_avbox_mapping_entry dut [])) from by
          simp [computeAVBoxs, hdut, hcam, hctl],
      hD0, hC1 _, hK1 _]
    simp [lookupKey]
  · rw [show computeAVBoxs [dut, ctl, cam]
        = add_avbox_mapping_entry cam (add_avbox_mapping_entry ctl
            (add_avbox_mapping_entry dut [])) from by
          simp [computeAVBoxs, hdut, hcam, hctl],
      hD0, hK1 _, hC1 _]
    simp [lookupKey]
  · rw [show computeAVBoxs [cam, dut, ctl]
        = add_avbox_mapping_entry ctl (add_avbox_mapping_entry dut
            (add_avbox_mapping_entry cam [])) from by
          simp [computeAVBoxs, hdut, hcam, hctl],
      hC0, hD1 _, hK1 _]
    simp [lookupKey]
  · rw [show computeAVBoxs [cam, ctl, dut]
        = add_avbox_mapping_entry dut (add_avbox_mapping_entry ctl
            (add_avbox_mapping_entry cam [])) from by
          simp [computeAVBoxs, hdut, hcam, hctl],
      hC0, hK1 _, hD1 _]
    simp [lookupKey]
  · rw [show computeAVBoxs [ctl, dut, cam]
        = add_avbox_mapping_entry cam (add_avbox_mapping_entry dut
            (add_avbox_mapping_entry ctl [])) from by
          simp [computeAVBoxs, hdut, hcam, hctl],
      hK0, hD1 _, hC1 _]
    simp [lookupKey]
  · rw [show computeAVBoxs [ctl, cam, dut]
        = add_avbox_mapping_entry dut (add_avbox_mapping_entry cam
            (add_avbox_mapping_entry ctl [])) from by
          simp [computeAVBoxs, hdut, hcam, hctl],
      hK0, hC1 _, hD1 _]
    simp [lookupKey]

/-- Witness for the amended C4: a concrete trio in the order
camera–control–device-under-test. -/
theorem box_grouping_order_amended_witness :
    lookupKey
        (computeAVBoxs
          [{ device_address := some "CAM",
             avbox_info := some ⟨some "camera_device", ["X"]⟩ },
           { device_address := some "CTL",
             avbox_info := some ⟨some "control", ["X"]⟩ },
           { device_address := some "X", device_type := some "phone",
             device_note := some "note1",
             avbox_info := some ⟨some "device_under_test", ["X"]⟩ }])
        "X"
      = some { dut := "X",
               device_type := some (some "phone"),
               device_notes := some (some "note1"),
               camera_device := some (some "CAM"),
               control := some (some "CTL") } :=
  box_grouping_order_amended
    { device_address := some "X", device_type := some "phone",
      device_note := some "note1",
      avbox_info := some ⟨some "device_under_test", ["X"]⟩ }
    { device_address := some "CAM",
      avbox_info := some ⟨some "camera_device", ["X"]⟩ }
    { device_address := some "CTL",
      avbox_info := some ⟨some "control", ["X"]⟩ }
    _ "X" ["X"] rfl (by decide) rfl (by decide) rfl rfl
    (Or.inr (Or.inr (Or.inr (Or.inl rfl))))

/-- C6 counterexample: a device with auxiliary info, role
`device_under_test` and a usable key source (its own address `A`), but
an empty auxiliary `devices` subfield.  The claim says the grouper
ensures a bundle exists for `A`; the code skips the device because line
168 also requires a truthy `devices` subfield, so no bundle is
produced. -/
theorem box_grouper_dut_skip_cex :
    computeAVBoxs
        [{ device_address := some "A", device_type := some "phone",
           device_note := some "n",
           avbox_info := some ⟨some "device_under_test", []⟩ }]
      = [] := by
  decide

/-- C6 (amended): a device with auxiliary info whose role is
`device_under_test`, whose `devices` subfield is non-empty and whose own
address is present and non-empty is keyed by its own address and its
bundle is populated with its category and note; a device whose auxiliary
info has a falsy `usage` or an empty/absent `devices` subfield is
skipped entirely and silently. -/
theorem box_grouper_dut_amended (device : RawDevice) (boxes : List (String × Bundle))
    (info : AvboxInfo) (A : String)
    (hinfo : device.avbox_info = some info)
    (husage : info.usage = some "device_under_test")
    (hdevs : info.devices ≠ [])
    (haddr : device.device_address = some A) (hA : A ≠ "") :
    (∃ b, lookupKey (add_avbox_mapping_entry device boxes) A = some b ∧
      b.device_type = some (orS device.device_subtype device.device_type) ∧
      b.device_notes = some device.device_note) ∧
    (∀ (d : RawDevice) (i : AvboxInfo), d.avbox_info = some i →
      truthyS i.usage = false ∨ i.devices = [] →
      add_avbox_mapping_entry d boxes = boxes) :=
  ⟨add_avbox_dut_sets_fields device boxes info "device_under_test" A hinfo husage
    strContains_dut_dut hdevs haddr hA,
   fun d i hi h => add_avbox_skip d boxes i hi h⟩

/-- Witness for the amended C6 at a concrete device-under-test record
and a concrete skipped record. -/
theorem box_grouper_dut_amended_witness :
    (∃ b, lookupKey
        (add_avbox_mapping_entry
          { device_address := some "A", device_type := some "phone",
            device_note := some "n",
            avbox_info := some ⟨some "device_under_test", ["A"]⟩ }
          []) "A" = some b ∧
      b.device_type = some (some "phone") ∧
      b.device_notes = some (some "n")) ∧
    add_avbox_mapping_entry
        { device_address := some "B",
          avbox_info := some ⟨some "device_under_test", []⟩ }
        ([] : List (String × Bundle))
      = [] :=
  ⟨(box_grouper_dut_amended
      { device_address := some "A", device_type := some "phone",
        device_note := some "n",
        avbox_info := some ⟨some "device_under_test", ["A"]⟩ }
      [] ⟨some "device_under_test", ["A"]⟩ "A" rfl rfl (by decide) rfl (by decide)).1,
   (box_grouper_dut_amended
      { device_address := some "A", device_type := some "phone",
        device_note := some "n",
        avbox_info := some ⟨some "device_under_test", ["A"]⟩ }
      [] ⟨some "device_under_test", ["A"]⟩ "A" rfl rfl (by decide) rfl (by decide)).2
    { device_address := some "B",
      avbox_info := some ⟨some "device_under_test", []⟩ }
    ⟨some "device_under_test", []⟩ rfl (Or.inr rfl)⟩

/-- C10 counterexample: a device whose auxiliary usage contains
`device_under_test` as a proper substring and whose auxiliary `devices`
list is empty is NOT grouped as a device-under-test bundle (the grouper
skips it at line 168), although it is excluded from the inventory
upsert; the claim asserts every such device is grouped. -/
theorem substring_vs_exact_cex :
    computeAVBoxs
        [{ device_address := some "W", device_type := some "tv",
           avbox_info := some ⟨some "device_under_test_v2", []⟩ }]
      = [] ∧
    device_included_in_inventory
        { device_address := some "W", device_type := some "tv",
          avbox_info := some ⟨some "device_under_test_v2", []⟩ }
      = false := by
  decide

/-- C10 (amended): for every raw device whose auxiliary usage contains
the substring `device_under_test` without equalling it exactly, whose
auxiliary `devices` list is non-empty and whose own address is present
and non-empty, the device is grouped as a device-under-test bundle
(keyed by its own address, populated with its category and note) yet
excluded from the inventory upsert. -/
theorem substring_vs_exact_amended (device : RawDevice) (boxes : List (String × Bundle))
    (info : AvboxInfo) (u A : String)
    (hinfo : device.avbox_info = some info)
    (husage : info.usage = some u)
    (hsub : strContains u "device_under_test" = true)
    (hne : u ≠ "device_under_test")
    (hdevs : info.devices ≠ [])
    (haddr : device.device_address = some A) (hA : A ≠ "") :
    (∃ b, lookupKey (add_avbox_mapping_entry device boxes) A = some b ∧
      b.device_type = some (orS device.device_subtype device.device_type) ∧
      b.device_notes = some device.device_note) ∧
    device_included_in_inventory device = false := by
  refine ⟨add_avbox_dut_sets_fields device boxes info u A hinfo husage hsub hdevs haddr hA, ?_⟩
  simp [device_included_in_inventory, hinfo, husage, hne]

/-!  Session-layer lemmas.  -/

theorem tick_ok_db {faultAt : Option Nat} {s s' : SessionState}
    (h : tick faultAt s = .ok s') : s'.db = s.db := by
  unfold tick at h
  by_cases hc : faultAt = some s.opCount
  · simp [hc] at h
  · simp only [hc, if_neg, if_false] at h
    cases h
    rfl

theorem tick_none_ok (s : SessionState) :
    tick none s = .ok { s with opCount := s.opCount + 1 } := rfl

theorem tick_mono {k : Nat} {s s' : SessionState}
    (h : tick (some k) s = .ok s') : tick none s = .ok s' := by
  unfold tick at h ⊢
  by_cases hc : (some k : Option Nat) = some s.opCount
  · simp [hc] at h
  · simp only [hc, if_neg, if_false] at h
    simpa using h

theorem foldlM_ok_invariant {α σ : Type} (P : σ → Prop) (step : σ → α → Except Unit σ) :
    ∀ (l : List α) (s s' : σ), List.foldlM step s l = .ok s' → P s →
      (∀ s a s', step s a = .ok s' → P s → P s') → P s' := by
  intro l
  induction l with
  | nil =>
    intro s s' h hp _
    simp only [List.foldlM_nil] at h
    cases h
    exact hp
  | cons a rest ih =>
    intro s s' h hp hstep
    rw [List.foldlM_cons] at h
    cases hsa : step s a with
    | error e => rw [hsa] at h; simp [Bind.bind, Except.bind] at h
    | ok s1 =>
      rw [hsa] at h
      simp only [Bind.bind, Except.bind] at h
      exact ih s1 s' h (hstep s a s1 hsa hp) hstep

theorem foldlM_ok_mono {α σ : Type} (f g : σ → α → Except Unit σ) :
    ∀ (l : List α) (s s' : σ), List.foldlM f s l = .ok s' →
      (∀ s a s', f s a = .ok s' → g s a = .ok s') → List.foldlM g s l = .ok s' := by
  intro l
  induction l with
  | nil => intro s s' h _; simpa using h
  | cons a rest ih =>
    intro s s' h hfg
    rw [List.foldlM_cons] at h ⊢
    cases hsa : f s a with
    | error e => rw [hsa] at h; simp [Bind.bind, Except.bind] at h
    | ok s1 =>
      rw [hsa] at h
      simp only [Bind.bind, Except.bind] at h
      rw [hfg s a s1 hsa]
      simp only [Bind.bind, Except.bind]
      exact ih s1 s' h hfg

theorem inventory_step_ok {tl : Option TeamsList} {boxes : List (String × Bundle)}
    {added_ids : Option String → Bool} {faultAt : Option Nat}
    {s s' : SessionState} {device : RawDevice}
    (h : inventory_step tl boxes added_ids faultAt s device = .ok s') :
    s'.db.inventory = gstep tl s.db.inventory device ∧
    s'.db.avbox = s.db.avbox ∧
    (∃ L, s'.db.ledger = s.db.ledger ++ L) := by
  unfold inventory_step at h
  by_cases hinc : device_included_in_inventory device
  · rw [if_pos hinc] at h
    cases ht : tick faultAt s with
    | error e => rw [ht] at h; simp [Except.bind] at h
    | ok s1 =>
      rw [ht] at h
      simp only [Except.bind] at h
      have hdb1 : s1.db = s.db := tick_ok_db ht
      by_cases hadd : added_ids (device_details_for_db device tl).udid
      · rw [if_pos hadd] at h
        cases haddr : device.device_address with
        | none => rw [haddr] at h; cases h
        | some addr =>
          rw [haddr] at h
          cases ht2 : tick faultAt { s1 with db := { s1.db with
              inventory := upsert_inventory s1.db.inventory (device_details_for_db device tl) } } with
          | error e => rw [ht2] at h; simp [Except.bind] at h
          | ok s3 =>
            rw [ht2] at h
            simp only [Except.bind] at h
            cases h
            have hdb3 := tick_ok_db ht2
            refine ⟨?_, ?_,
              ⟨[{ udid := (device_details_for_db device tl).udid,
                  status := "added",
                  details := { model := device.model,
                               type := get_effective_device_type device,
                               companions := (lookupKey boxes addr).map
                                 (fun b => (b.camera_device.join, b.control.join)) } }], ?_⟩⟩
            · rw [hdb3]; simp [gstep, hinc, hdb1]
            · rw [hdb3]; simp [hdb1]
            · rw [hdb3]; simp [hdb1]
      · rw [if_neg hadd] at h
        cases h
        refine ⟨?_, ?_, ⟨[], ?_⟩⟩
        · simp [gstep, hinc, hdb1]
        · simp [hdb1]
        · simp [hdb1]
  · rw [if_neg hinc] at h
    cases h
    exact ⟨by simp [gstep, hinc], rfl, ⟨[], by simp⟩⟩

theorem avbox_step_ok {faultAt : Option Nat} {s s' : SessionState}
    {entry : String × Bundle}
    (h : avbox_step faultAt s entry = .ok s') :
    s'.db.avbox = astep s.db.avbox entry ∧
    s'.db.inventory = s.db.inventory ∧
    s'.db.ledger = s.db.ledger := by
  unfold avbox_step at h
  cases ht : tick faultAt s with
  | error e => rw [ht] at h; simp [Except.bind] at h
  | ok s1 =>
    rw [ht] at h
    simp only [Except.bind] at h
    cases h
    have hdb1 : s1.db = s.db := tick_ok_db ht
    exact ⟨by simp [astep, hdb1], by simp [hdb1], by simp [hdb1]⟩

/-- Witness for the amended C10 at a concrete device with usage
`device_under_test_v2`. -/
theorem substring_vs_exact_amended_witness :
    (∃ b, lookupKey
        (add_avbox_mapping_entry
          { device_address := some "W", device_type := some "tv",
            avbox_info := some ⟨some "device_under_test_v2", ["W"]⟩ }
          []) "W" = some b ∧
      b.device_type = some (some "tv") ∧
      b.device_notes = some none) ∧
    device_included_in_inventory
        { device_address := some "W", device_type := some "tv",
          avbox_info := some ⟨some "device_under_test_v2", ["W"]⟩ }
      = false :=
  substring_vs_exact_amended
    { device_address := some "W", device_type := some "tv",
      avbox_info := some ⟨some "device_under_test_v2", ["W"]⟩ }
    [] ⟨some "device_under_test_v2", ["W"]⟩ "device_under_test_v2" "W"
    rfl rfl (by decide) (by decide) (by decide) rfl (by decide)

theorem except_bind_ok {f : Except Unit SessionState}
    {g : SessionState → Except Unit SessionState} {r : SessionState}
    (h : f.bind g = .ok r) : ∃ t, f = .ok t ∧ g t = .ok r := by
  cases hv : f with
  | error e => rw [hv] at h; simp [Except.bind] at h
  | ok t =>
    rw [hv] at h
    simp only [Except.bind] at h
    exact ⟨t, rfl, h⟩

theorem tick_bind_mono {k : Nat} {s : SessionState}
    {g g' : SessionState → Except Unit SessionState} {r : SessionState}
    (hg : ∀ t, g t = .ok r → g' t = .ok r)
    (h : (tick (some k) s).bind g = .ok r) : (tick none s).bind g' = .ok r := by
  cases ht : tick (some k) s with
  | error e => rw [ht] at h; simp [Except.bind] at h
  | ok s1 =>
    rw [ht] at h
    rw [tick_mono ht]
    simp only [Except.bind] at h ⊢
    exact hg s1 h

theorem removed_step_mono {k : Nat} {s s' : SessionState} {uid : Option String}
    (h : removed_step (some k) s uid = .ok s') : removed_step none s uid = .ok s' := by
  unfold removed_step at h ⊢
  cases hf : s.db.inventory.filter (fun r => decide (r.udid = uid)) with
  | nil => rw [hf] at h; cases h
  | cons row rest =>
    cases rest with
    | cons b bs => rw [hf] at h; cases h
    | nil =>
      rw [hf] at h
      refine tick_bind_mono (fun t ht => ?_) h
      exact tick_bind_mono (fun t2 ht2 => ht2) ht

theorem inventory_step_mono {tl : Option TeamsList} {boxes : List (String × Bundle)}
    {added_ids : Option String → Bool} {k : Nat} {s s' : SessionState}
    {device : RawDevice}
    (h : inventory_step tl boxes added_ids (some k) s device = .ok s') :
    inventory_step tl boxes added_ids none s device = .ok s' := by
  unfold inventory_step at h ⊢
  by_cases hinc : device_included_in_inventory device
  · rw [if_pos hinc] at h ⊢
    refine tick_bind_mono (fun t ht => ?_) h
    by_cases hadd : added_ids (device_details_for_db device tl).udid
    · rw [if_pos hadd] at ht ⊢
      cases haddr : device.device_address with
      | none => rw [haddr] at ht; cases ht
      | some addr =>
        rw [haddr] at ht
        exact tick_bind_mono (fun t2 ht2 => ht2) ht
    · rw [if_neg hadd] at ht ⊢
      exact ht
  · rw [if_neg hinc] at h ⊢
    exact h

theorem avbox_step_mono {k : Nat} {s s' : SessionState} {entry : String × Bundle}
    (h : avbox_step (some k) s entry = .ok s') : avbox_step none s entry = .ok s' := by
  unfold avbox_step at h ⊢
  exact tick_bind_mono (fun t ht => ht) h

theorem except_bind_mono {f f' : Except Unit SessionState}
    {g g' : SessionState → Except Unit SessionState} {r : SessionState}
    (hf : ∀ t, f = .ok t → f' = .ok t)
    (hg : ∀ t, g t = .ok r → g' t = .ok r)
    (h : f.bind g = .ok r) : f'.bind g' = .ok r := by
  obtain ⟨t, hv, hgt⟩ := except_bind_ok h
  rw [hf t hv]
  simp only [Except.bind]
  exact hg t hgt

theorem mainBody_fault_mono {db0 : DB} {snap : Option Snapshot} {tl : Option TeamsList}
    {k : Nat} {s : SessionState}
    (h : mainBody db0 snap tl (some k) = .ok s) : mainBody db0 snap tl none = .ok s := by
  cases snap with
  | none => exact h
  | some sn =>
    simp only [mainBody] at h ⊢
    by_cases hdev : sn.devices = []
    · rw [if_pos hdev] at h ⊢; exact h
    · rw [if_neg hdev] at h ⊢
      refine except_bind_mono
        (fun t ht => foldlM_ok_mono _ _ _ _ _ ht (fun a b c hh => removed_step_mono hh))
        (fun t ht => ?_) h
      refine except_bind_mono
        (fun t2 ht2 => foldlM_ok_mono _ _ _ _ _ ht2 (fun a b c hh => inventory_step_mono hh))
        (fun t2 ht2 => foldlM_ok_mono _ _ _ _ _ ht2 (fun a b c hh => avbox_step_mono hh)) ht

/-- C2: any fault raised while applying the diff (injected at an
arbitrary mutating statement, or the `device['device_address']` lookup
fault) aborts the run and rolls back to the pre-run persisted state; and
a run with an injected fault either leaves the state exactly as before
the run or behaves exactly like the fault-free run — no partial subset
of the changes is ever observable. -/
theorem reconciler_atomic_rollback (db0 : DB) (snap : Option Snapshot)
    (tl : Option TeamsList) (k : Nat) :
    (mainBody db0 snap tl (some k) = .error () → mainRun db0 snap tl (some k) = db0) ∧
    (mainRun db0 snap tl (some k) = db0 ∨
      mainRun db0 snap tl (some k) = mainRun db0 snap tl none) := by
  constructor
  · intro h
    simp [mainRun, h]
  · cases hR : mainBody db0 snap tl (some k) with
    | error e => left; simp [mainRun, hR]
    | ok s =>
      right
      simp [mainRun, hR, mainBody_fault_mono hR]

/-- Witness for C2: a two-device snapshot against an empty store, with
the injected fault at the third mutating statement (the second device's
insert); the body raises and the run leaves the store empty. -/
theorem reconciler_atomic_rollback_witness :
    mainBody ⟨[], [], []⟩
        (some ⟨[{ device_type := some "ios", device_id := some "id1",
                  device_address := some "a1", model := some "m1" },
                { device_type := some "android", device_id := some "id2",
                  device_address := some "a2" }]⟩)
        none (some 2) = .error () ∧
    mainRun ⟨[], [], []⟩
        (some ⟨[{ device_type := some "ios", device_id := some "id1",
                  device_address := some "a1", model := some "m1" },
                { device_type := some "android", device_id := some "id2",
                  device_address := some "a2" }]⟩)
        none (some 2) = ⟨[], [], []⟩ :=
  ⟨rfl,
   (reconciler_atomic_rollback ⟨[], [], []⟩
      (some ⟨[{ device_type := some "ios", device_id := some "id1",
                device_address := some "a1", model := some "m1" },
              { device_type := some "android", device_id := some "id2",
                device_address := some "a2" }]⟩)
      none 2).1 rfl⟩

/-- C5: a raw device is upserted into the inventory store iff its
auxiliary descriptor is absent or its usage equals `device_under_test`
exactly; the upsert overwrites every field of the (first) record with
the same identifier when one exists, and inserts a new record
otherwise. -/
theorem inventory_upsert_filter_spec :
    (∀ device : RawDevice, device_included_in_inventory device = true ↔
      (device.avbox_info = none ∨
        ∃ info, device.avbox_info = some info ∧ info.usage = some "device_under_test")) ∧
    (∀ (tl : Option TeamsList) (boxes : List (String × Bundle))
        (added_ids : Option String → Bool) (faultAt : Option Nat)
        (s s' : SessionState) (device : RawDevice),
      inventory_step tl boxes added_ids faultAt s device = .ok s' →
      s'.db.inventory =
        (if device_included_in_inventory device then
          upsert_inventory s.db.inventory (device_details_for_db device tl)
        else s.db.inventory)) ∧
    (∀ (inv : List InventoryData) (data : InventoryData),
      (∀ r ∈ inv, r.udid ≠ data.udid) → upsert_inventory inv data = inv ++ [data]) ∧
    (∀ (pre post : List InventoryData) (r data : InventoryData),
      r.udid = data.udid → (∀ r2 ∈ pre, r2.udid ≠ data.udid) →
      upsert_inventory (pre ++ r :: post) data = pre ++ data :: post) := by
  refine ⟨?_, ?_, ?_, ?_⟩
  · intro device
    cases hv : device.avbox_info with
    | none => simp [device_included_in_inventory, hv]
    | some info => simp [device_included_in_inventory, hv]
  · intro tl boxes added_ids faultAt s s' device h
    simpa [gstep] using (inventory_step_ok h).1
  · intro inv data hne
    induction inv with
    | nil => rfl
    | cons r rs ih =>
      rw [upsert_inventory, if_neg (hne r (by simp))]
      simp only [List.cons_append]
      rw [ih (fun r2 hr2 => hne r2 (by simp [hr2]))]
  · intro pre post r data hr hpre
    induction pre with
    | nil => simp [upsert_inventory, hr]
    | cons p ps ih =>
      rw [List.cons_append, upsert_inventory, if_neg (hpre p (by simp))]
      simp only [List.cons_append]
      rw [ih (fun r2 hr2 => hpre r2 (by simp [hr2]))]

/-- Witness for C5: a device with no auxiliary descriptor passes the
guard, a concrete successful step upserts it, an insert into an
inventory without its identifier appends, and an upsert over an
existing record overwrites it in place. -/
theorem inventory_upsert_filter_spec_witness :
    device_included_in_inventory { device_id := some "id1" } = true ∧
    (⟨⟨[device_details_for_db { device_id := some "id1" } none], [], []⟩, 1⟩
        : SessionState).db.inventory
      = (if device_included_in_inventory { device_id := some "id1" } then
          upsert_inventory [] (device_details_for_db { device_id := some "id1" } none)
        else []) ∧
    upsert_inventory [] (device_details_for_db { device_id := some "id1" } none)
      = [] ++ [device_details_for_db { device_id := some "id1" } none] ∧
    upsert_inventory ([] ++ device_details_for_db { device_id := some "id1" } none :: [])
        (device_details_for_db { device_id := some "id1" } none)
      = [] ++ device_details_for_db { device_id := some "id1" } none :: [] :=
  ⟨(inventory_upsert_filter_spec.1 _).mpr (Or.inl rfl),
   inventory_upsert_filter_spec.2.1 none [] (fun _ => false) none
     ⟨⟨[], [], []⟩, 0⟩ _ { device_id := some "id1" } rfl,
   inventory_upsert_filter_spec.2.2.1 [] _ (fun r hr => absurd hr (by simp)),
   inventory_upsert_filter_spec.2.2.2 [] [] _ _ rfl (fun r hr => absurd hr (by simp))⟩

/-!  Inventory identifier uniqueness (C9).  -/

theorem upsert_inventory_udids (inv : List InventoryData) (data : InventoryData) :
    (upsert_inventory inv data).map (fun r => r.udid) =
      if data.udid ∈ inv.map (fun r => r.udid) then inv.map (fun r => r.udid)
      else inv.map (fun r => r.udid) ++ [data.udid] := by
  induction inv with
  | nil => simp [upsert_inventory]
  | cons r rs ih =>
    by_cases h : r.udid = data.udid
    · simp [upsert_inventory, h]
    · rw [upsert_inventory, if_neg h]
      simp only [List.map_cons, ih]
      have h' : data.udid ≠ r.udid := fun hh => h hh.symm
      by_cases hm : data.udid ∈ rs.map (fun r => r.udid)
      · simp [hm, h']
      · simp [hm, h']

theorem upsert_inventory_nodup {inv : List InventoryData} {data : InventoryData}
    (h : (inv.map (fun r => r.udid)).Nodup) :
    ((upsert_inventory inv data).map (fun r => r.udid)).Nodup := by
  rw [upsert_inventory_udids]
  by_cases hm : data.udid ∈ inv.map (fun r => r.udid)
  · simpa [hm] using h
  · simp only [hm, if_neg, if_false]
    simp [List.nodup_append, h, hm]

theorem removeInventoryRow_nodup {inv : List InventoryData} {uid : Option String}
    (h : (inv.map (fun r => r.udid)).Nodup) :
    ((removeInventoryRow inv uid).map (fun r => r.udid)).Nodup :=
  ((List.eraseP_sublist _).map _).nodup h

theorem removed_step_nodup {faultAt : Option Nat} {s s' : SessionState}
    {uid : Option String}
    (h : removed_step faultAt s uid = .ok s')
    (hp : (s.db.inventory.map (fun r => r.udid)).Nodup) :
    (s'.db.inventory.map (fun r => r.udid)).Nodup := by
  unfold removed_step at h
  cases hf : s.db.inventory.filter (fun r => decide (r.udid = uid)) with
  | nil => rw [hf] at h; cases h
  | cons row rest =>
    cases rest with
    | cons b bs => rw [hf] at h; cases h
    | nil =>
      rw [hf] at h
      obtain ⟨t, ht, h2⟩ := except_bind_ok h
      obtain ⟨t2, ht2, h3⟩ := except_bind_ok h2
      cases h3
      have hd1 : t.db = s.db := tick_ok_db ht
      have hd2 := tick_ok_db ht2
      simp only [hd2, hd1]
      exact removeInventoryRow_nodup hp

theorem inventory_step_nodup {tl : Option TeamsList} {boxes : List (String × Bundle)}
    {added_ids : Option String → Bool} {faultAt : Option Nat}
    {s s' : SessionState} {device : RawDevice}
    (h : inventory_step tl boxes added_ids faultAt s device = .ok s')
    (hp : (s.db.inventory.map (fun r => r.udid)).Nodup) :
    (s'.db.inventory.map (fun r => r.udid)).Nodup := by
  rw [(inventory_step_ok h).1]
  unfold gstep
  by_cases hinc : device_included_in_inventory device
  · rw [if_pos hinc]
    exact upsert_inventory_nodup hp
  · rw [if_neg hinc]
    exact hp

theorem avbox_step_nodup {faultAt : Option Nat} {s s' : SessionState}
    {entry : String × Bundle}
    (h : avbox_step faultAt s entry = .ok s')
    (hp : (s.db.inventory.map (fun r => r.udid)).Nodup) :
    (s'.db.inventory.map (fun r => r.udid)).Nodup := by
  rw [(avbox_step_ok h).2.1]
  exact hp

theorem mainBody_inventory_nodup {db0 : DB} {snap : Option Snapshot}
    {tl : Option TeamsList} {faultAt : Option Nat} {s : SessionState}
    (hR : mainBody db0 snap tl faultAt = .ok s)
    (h : (db0.inventory.map (fun r => r.udid)).Nodup) :
    (s.db.inventory.map (fun r => r.udid)).Nodup := by
  cases snap with
  | none =>
    simp only [mainBody] at hR
    cases hR; exact h
  | some sn =>
    simp only [mainBody] at hR
    by_cases hdev : sn.devices = []
    · rw [if_pos hdev] at hR; cases hR; exact h
    · rw [if_neg hdev] at hR
      obtain ⟨s1, h1, hrest⟩ := except_bind_ok hR
      obtain ⟨s2, h2, h3⟩ := except_bind_ok hrest
      have hp1 := foldlM_ok_invariant
        (fun t => (t.db.inventory.map (fun r => r.udid)).Nodup) _ _ _ _ h1 h
        (fun a b c hh hhp => removed_step_nodup hh hhp)
      have hp2 := foldlM_ok_invariant
        (fun t => (t.db.inventory.map (fun r => r.udid)).Nodup) _ _ _ _ h2 hp1
        (fun a b c hh hhp => inventory_step_nodup hh hhp)
      exact foldlM_ok_invariant
        (fun t => (t.db.inventory.map (fun r => r.udid)).Nodup) _ _ _ _ h3 hp2
        (fun a b c hh hhp => avbox_step_nodup hh hhp)

/-- C9: if each inventory identifier occurs at most once before the run,
then after a synchronization run (with or without an injected fault)
each identifier still keys at most one inventory record: the upsert
overwrites the existing record instead of inserting a duplicate. -/
theorem udid_unique_invariant (db0 : DB) (snap : Option Snapshot)
    (tl : Option TeamsList) (faultAt : Option Nat)
    (h : (db0.inventory.map (fun r => r.udid)).Nodup) :
    ((mainRun db0 snap tl faultAt).inventory.map (fun r => r.udid)).Nodup := by
  unfold mainRun
  cases hR : mainBody db0 snap tl faultAt with
  | error e => exact h
  | ok s => exact mainBody_inventory_nodup hR h

/-- Witness for C9: a store with one record, a snapshot containing two
devices that resolve to the same identifier, and the resulting store
still has pairwise distinct identifiers. -/
theorem udid_unique_invariant_witness :
    (([{ device_type := "ios", udid := some "id1" }] : List InventoryData).map
      (fun r => r.udid)).Nodup ∧
    ((mainRun ⟨[{ device_type := "ios", udid := some "id1" }], [], []⟩
        (some ⟨[{ device_type := some "android", device_id := some "idX",
                  device_address := some "a2" },
                { device_type := some "android2", device_id := some "idX",
                  device_address := some "a3" }]⟩)
        none none).inventory.map (fun r => r.udid)).Nodup :=
  ⟨by decide, udid_unique_invariant _ _ _ _ (by decide)⟩

/-!  Idempotence of the synchronization cycle (C3): pure inventory algebra.  -/

theorem upsert_absorb (inv : List InventoryData) (d1 d2 : InventoryData)
    (h : d1.udid = d2.udid) :
    upsert_inventory (upsert_inventory inv d1) d2 = upsert_inventory inv d2 := by
  induction inv with
  | nil => simp [upsert_inventory, h]
  | cons r rs ih =>
    by_cases hr : r.udid = d1.udid
    · rw [upsert_inventory, if_pos hr, upsert_inventory, if_pos h, upsert_inventory,
        if_pos (hr.trans h)]
    · rw [upsert_inventory, if_neg hr, upsert_inventory]
      by_cases hr2 : r.udid = d2.udid
      · exact absurd (hr2.trans h.symm) hr
      · rw [if_neg hr2, upsert_inventory, if_neg hr2, ih]

theorem upsert_comm (inv : List InventoryData) (d1 d2 : InventoryData)
    (hne : d1.udid ≠ d2.udid) (hmem : d1.udid ∈ inv.map (fun r => r.udid)) :
    upsert_inventory (upsert_inventory inv d1) d2 =
      upsert_inventory (upsert_inventory inv d2) d1 := by
  induction inv with
  | nil => simp at hmem
  | cons r rs ih =>
    by_cases h1 : r.udid = d1.udid
    · rw [upsert_inventory, if_pos h1, upsert_inventory, if_neg hne,
        upsert_inventory, if_neg (fun hh => hne (h1.symm.trans hh)),
        upsert_inventory, if_pos h1]
    · by_cases h2 : r.udid = d2.udid
      · rw [upsert_inventory, if_neg h1, upsert_inventory, if_pos h2,
          upsert_inventory, if_pos h2, upsert_inventory, if_neg (Ne.symm hne)]
      · rw [upsert_inventory, if_neg h1, upsert_inventory, if_neg h2,
          upsert_inventory, if_neg h2, upsert_inventory, if_neg h1]
        have hmem2 : d1.udid ∈ r.udid :: rs.map (fun r => r.udid) := by
          rw [List.map_cons] at hmem; exact hmem
        have hmem3 : d1.udid ∈ rs.map (fun r => r.udid) := by
          rcases List.mem_cons.mp hmem2 with hh | hh
          · exact absurd hh.symm h1
          · exact hh
        rw [ih hmem3]

theorem mem_uids_upsert {inv : List InventoryData} {data : InventoryData}
    {u : Option String} (h : u ∈ inv.map (fun r => r.udid)) :
    u ∈ (upsert_inventory inv data).map (fun r => r.udid) := by
  rw [upsert_inventory_udids]
  by_cases hm : data.udid ∈ inv.map (fun r => r.udid) <;> simp [hm, h]

theorem self_mem_uids_upsert (inv : List InventoryData) (data : InventoryData) :
    data.udid ∈ (upsert_inventory inv data).map (fun r => r.udid) := by
  rw [upsert_inventory_udids]
  by_cases hm : data.udid ∈ inv.map (fun r => r.udid) <;> simp [hm]

theorem mem_uids_gstep {tl : Option TeamsList} {inv : List InventoryData}
    {d : RawDevice} {u : Option String} (h : u ∈ inv.map (fun r => r.udid)) :
    u ∈ (gstep tl inv d).map (fun r => r.udid) := by
  unfold gstep
  by_cases hinc : device_included_in_inventory d
  · rw [if_pos hinc]; exact mem_uids_upsert h
  · rwa [if_neg hinc]

theorem mem_uids_foldl_gstep (tl : Option TeamsList) :
    ∀ (ds : List RawDevice) (inv : List InventoryData) (u : Option String),
      u ∈ inv.map (fun r => r.udid) →
      u ∈ (List.foldl (gstep tl) inv ds).map (fun r => r.udid) := by
  intro ds
  induction ds with
  | nil => intro inv u h; simpa using h
  | cons d rest ih =>
    intro inv u h
    rw [List.foldl_cons]
    exact ih _ _ (mem_uids_gstep h)

theorem writer_mem_uids_foldl (tl : Option TeamsList) :
    ∀ (ds : List RawDevice) (inv : List InventoryData) (d : RawDevice),
      d ∈ ds → device_included_in_inventory d = true →
      (device_details_for_db d tl).udid ∈
        (List.foldl (gstep tl) inv ds).map (fun r => r.udid) := by
  intro ds
  induction ds with
  | nil => intro inv d h; cases h
  | cons x rest ih =>
    intro inv d hmem hinc
    rw [List.foldl_cons]
    rcases List.mem_cons.mp hmem with h | h
    · subst h
      apply mem_uids_foldl_gstep
      unfold gstep
      rw [if_pos hinc]
      exact self_mem_uids_upsert _ _
    · exact ih _ d h hinc

theorem foldl_gstep_push (tl : Option TeamsList) :
    ∀ (ds : List RawDevice) (s : List InventoryData) (data : InventoryData),
      (∀ x ∈ ds, device_included_in_inventory x = true →
        (device_details_for_db x tl).udid ∈ s.map (fun r => r.udid)) →
      List.foldl (gstep tl) (upsert_inventory s data) ds =
        (if ds.any (fun x => device_included_in_inventory x &&
            decide ((device_details_for_db x tl).udid = data.udid)) then
          List.foldl (gstep tl) s ds
        else upsert_inventory (List.foldl (gstep tl) s ds) data) := by
  intro ds
  induction ds with
  | nil => intro s data h; simp
  | cons x rest ih =>
    intro s data hmem
    rw [List.foldl_cons, List.foldl_cons, List.any_cons]
    by_cases hinc : device_included_in_inventory x
    · by_cases heq : (device_details_for_db x tl).udid = data.udid
      · have habs : gstep tl (upsert_inventory s data) x = gstep tl s x := by
          unfold gstep
          rw [if_pos hinc, if_pos hinc]
          exact upsert_absorb s data (device_details_for_db x tl) heq.symm
        have hc : (device_included_in_inventory x &&
            decide ((device_details_for_db x tl).udid = data.udid)) = true := by
          simp [hinc, heq]
        rw [habs, hc, Bool.true_or, if_pos rfl]
      · have hx : (device_details_for_db x tl).udid ∈ s.map (fun r => r.udid) :=
          hmem x (by simp) hinc
        have hcomm : gstep tl (upsert_inventory s data) x =
            upsert_inventory (gstep tl s x) data := by
          unfold gstep
          rw [if_pos hinc, if_pos hinc]
          exact (upsert_comm s (device_details_for_db x tl) data heq hx).symm
        have hc : (device_included_in_inventory x &&
            decide ((device_details_for_db x tl).udid = data.udid)) = false := by
          simp [heq]
        rw [hcomm, hc, Bool.false_or,
          ih (gstep tl s x) data (fun y hy hincy => mem_uids_gstep (hmem y (by simp [hy]) hincy))]
    · have hid1 : gstep tl (upsert_inventory s data) x = upsert_inventory s data := by
        unfold gstep; rw [if_neg hinc]
      have hid2 : gstep tl s x = s := by
        unfold gstep; rw [if_neg hinc]
      have hc : (device_included_in_inventory x &&
          decide ((device_details_for_db x tl).udid = data.udid)) = false := by
        simp [hinc]
      rw [hid1, hid2, hc, Bool.false_or,
        ih s data (fun y hy hincy => hmem y (by simp [hy]) hincy)]

theorem foldl_gstep_replay (tl : Option TeamsList) (ds : List RawDevice) :
    ∀ inv : List InventoryData,
      List.foldl (gstep tl) (List.foldl (gstep tl) inv ds) ds =
        List.foldl (gstep tl) inv ds := by
  induction ds using List.reverseRecOn with
  | nil => intro inv; simp
  | append_singleton ds' d ih =>
    intro inv
    simp only [List.foldl_append]
    by_cases hinc : device_included_in_inventory d
    · have hstep : gstep tl (List.foldl (gstep tl) inv ds') d =
          upsert_inventory (List.foldl (gstep tl) inv ds')
            (device_details_for_db d tl) := by
        unfold gstep; rw [if_pos hinc]
      simp only [List.foldl_cons, List.foldl_nil]
      rw [hstep,
        foldl_gstep_push tl ds' (List.foldl (gstep tl) inv ds')
          (device_details_for_db d tl)
          (fun x hx hincx => writer_mem_uids_foldl tl ds' inv x hx hincx)]
      by_cases hany : (ds'.any (fun x => device_included_in_inventory x &&
          decide ((device_details_for_db x tl).udid =
            (device_details_for_db d tl).udid))) = true
      · rw [if_pos hany, ih inv, hstep]
      · rw [if_neg hany, ih inv]
        have : gstep tl (upsert_inventory (List.foldl (gstep tl) inv ds')
            (device_details_for_db d tl)) d =
            upsert_inventory (upsert_inventory (List.foldl (gstep tl) inv ds')
              (device_details_for_db d tl)) (device_details_for_db d tl) := by
          unfold gstep; rw [if_pos hinc]
        rw [this, upsert_absorb _ _ _ rfl]
    · have hstep : gstep tl (List.foldl (gstep tl) inv ds') d =
          List.foldl (gstep tl) inv ds' := by
        unfold gstep; rw [if_neg hinc]
      simp only [List.foldl_cons, List.foldl_nil]
      rw [hstep, ih inv, hstep]

/-!  Idempotence: pure box-mapping algebra.  -/

theorem applyBundle_idem (r : AVBoxRow) (b : Bundle) :
    applyBundle (applyBundle r b) b = applyBundle r b := by
  rcases b with ⟨bd, bt, bn, bc, bk⟩
  cases bt <;> cases bn <;> cases bc <;> cases bk <;> rfl

theorem applyBundle_bundleToRow (b : Bundle) :
    applyBundle (bundleToRow b) b = bundleToRow b := by
  rcases b with ⟨bd, bt, bn, bc, bk⟩
  cases bt <;> cases bn <;> cases bc <;> cases bk <;> rfl

theorem upsert_avbox_id : ∀ (rows : List AVBoxRow) (k : String) (b : Bundle)
    (r : AVBoxRow), firstDut rows k = some r → applyBundle r b = r →
    upsert_avbox rows k b = rows := by
  intro rows
  induction rows with
  | nil => intro k b r h; cases h
  | cons x rest ih =>
    intro k b r h happ
    by_cases hx : x.dut = k
    · rw [firstDut, if_pos hx] at h
      cases h
      rw [upsert_avbox, if_pos hx, happ]
    · rw [firstDut, if_neg hx] at h
      rw [upsert_avbox, if_neg hx, ih k b r h happ]

theorem firstDut_upsert_self (rows : List AVBoxRow) (k : String) (b : Bundle)
    (hb : b.dut = k) :
    firstDut (upsert_avbox rows k b) k =
      some (match firstDut rows k with
            | some r => applyBundle r b
            | none => bundleToRow b) := by
  induction rows with
  | nil =>
    rw [upsert_avbox, firstDut, firstDut]
    rw [if_pos (show (bundleToRow b).dut = k from hb)]
  | cons x rest ih =>
    by_cases hx : x.dut = k
    · rw [upsert_avbox, if_pos hx, firstDut, if_pos (show (applyBundle x b).dut = k from hb),
        firstDut, if_pos hx]
    · rw [upsert_avbox, if_neg hx, firstDut, if_neg hx, firstDut, if_neg hx, ih]

theorem firstDut_upsert_ne (rows : List AVBoxRow) (k k' : String) (b : Bundle)
    (hb : b.dut = k) (hne : k' ≠ k) :
    firstDut (upsert_avbox rows k b) k' = firstDut rows k' := by
  induction rows with
  | nil =>
    rw [upsert_avbox, firstDut, firstDut, firstDut,
      if_neg (show ¬(bundleToRow b).dut = k' from
        fun hh => hne ((Eq.symm hh).trans hb))]
  | cons x rest ih =>
    by_cases hx : x.dut = k
    · rw [upsert_avbox, if_pos hx, firstDut, firstDut,
        if_neg (show ¬(applyBundle x b).dut = k' from
          fun hh => hne ((Eq.symm hh).trans hb)),
        if_neg (show ¬x.dut = k' from fun hh => hne ((Eq.symm hh).trans hx))]
    · by_cases hx' : x.dut = k'
      · rw [upsert_avbox, if_neg hx, firstDut, if_pos hx', firstDut, if_pos hx']
      · rw [upsert_avbox, if_neg hx, firstDut, if_neg hx', firstDut, if_neg hx', ih]

theorem foldl_astep_preserve :
    ∀ (boxes : List (String × Bundle)) (rows : List AVBoxRow) (k : String),
      (∀ p ∈ boxes, p.1 ≠ k ∧ p.2.dut = p.1) →
      firstDut (List.foldl astep rows boxes) k = firstDut rows k := by
  intro boxes
  induction boxes with
  | nil => intro rows k h; rfl
  | cons p rest ih =>
    intro rows k h
    rw [List.foldl_cons, ih _ _ (fun q hq => h q (by simp [hq]))]
    obtain ⟨hne, hdut⟩ := h p (by simp)
    exact firstDut_upsert_ne rows p.1 k p.2 hdut (fun hh => hne hh.symm)

theorem foldl_astep_establish :
    ∀ (boxes : List (String × Bundle)) (rows : List AVBoxRow),
      (boxes.map Prod.fst).Nodup → (∀ p ∈ boxes, p.2.dut = p.1) →
      ∀ p ∈ boxes, ∃ r, firstDut (List.foldl astep rows boxes) p.1 = some r ∧
        applyBundle r p.2 = r := by
  intro boxes
  induction boxes with
  | nil => intro rows _ _ p hp; cases hp
  | cons q rest ih =>
    intro rows hnodup hkeyed p hp
    have hnd : q.1 ∉ rest.map Prod.fst ∧ (rest.map Prod.fst).Nodup := by
      rw [List.map_cons] at hnodup
      exact List.nodup_cons.mp hnodup
    rw [List.foldl_cons]
    rcases List.mem_cons.mp hp with h | h
    · subst h
      have hrest : ∀ x ∈ rest, x.1 ≠ p.1 ∧ x.2.dut = x.1 := by
        intro x hx
        refine ⟨fun hEq => hnd.1 ?_, hkeyed x (by simp [hx])⟩
        rw [← hEq]
        exact List.mem_map_of_mem _ hx
      rw [foldl_astep_preserve rest _ p.1 hrest,
        show astep rows p = upsert_avbox rows p.1 p.2 from rfl,
        firstDut_upsert_self rows p.1 p.2 (hkeyed p (by simp))]
      cases hfd : firstDut rows p.1 with
      | none => exact ⟨bundleToRow p.2, rfl, applyBundle_bundleToRow _⟩
      | some r0 => exact ⟨applyBundle r0 p.2, rfl, applyBundle_idem r0 p.2⟩
    · exact ih (astep rows q) hnd.2
        (fun x hx => hkeyed x (by simp [hx])) p h

theorem foldl_astep_id_of_steps :
    ∀ (boxes : List (String × Bundle)) (S : List AVBoxRow),
      (∀ p ∈ boxes, astep S p = S) → List.foldl astep S boxes = S := by
  intro boxes
  induction boxes with
  | nil => intro S h; rfl
  | cons q rest ih =>
    intro S h
    rw [List.foldl_cons, h q (by simp)]
    exact ih S (fun p hp => h p (by simp [hp]))

theorem foldl_astep_replay (boxes : List (String × Bundle)) (rows : List AVBoxRow)
    (hnodup : (boxes.map Prod.fst).Nodup) (hkeyed : ∀ p ∈ boxes, p.2.dut = p.1) :
    List.foldl astep (List.foldl astep rows boxes) boxes =
      List.foldl astep rows boxes := by
  apply foldl_astep_id_of_steps
  intro p hp
  obtain ⟨r, hr, happ⟩ := foldl_astep_establish boxes rows hnodup hkeyed p hp
  exact upsert_avbox_id _ p.1 p.2 r hr happ

/-!  Idempotence: well-formedness of the grouper's accumulator.  -/

theorem updateAssoc_keys (l : List (String × Bundle)) (k : String) (f : Bundle → Bundle) :
    (updateAssoc l k f).map Prod.fst = l.map Prod.fst := by
  induction l with
  | nil => rfl
  | cons p rest ih =>
    unfold updateAssoc at ih ⊢
    by_cases h : p.1 = k
    · simp [h, ih]
    · simp [h, ih]

theorem lookupKey_none_not_mem {l : List (String × Bundle)} {k : String}
    (h : lookupKey l k = none) : k ∉ l.map Prod.fst := by
  induction l with
  | nil => simp
  | cons p rest ih =>
    rw [lookupKey] at h
    by_cases hp : p.1 = k
    · rw [if_pos hp] at h; cases h
    · rw [if_neg hp] at h
      simp only [List.map_cons, List.mem_cons]
      rintro (hh | hh)
      · exact hp hh.symm
      · exact ih h hh

theorem updateAssoc_wf (l : List (String × Bundle)) (k : String) (f : Bundle → Bundle)
    (hf : ∀ b, (f b).dut = b.dut)
    (hnodup : (l.map Prod.fst).Nodup) (hkeyed : ∀ p ∈ l, p.2.dut = p.1) :
    ((updateAssoc l k f).map Prod.fst).Nodup ∧
      ∀ p ∈ updateAssoc l k f, p.2.dut = p.1 := by
  refine ⟨by rw [updateAssoc_keys]; exact hnodup, ?_⟩
  intro p hp
  unfold updateAssoc at hp
  obtain ⟨q, hq, hpq⟩ := List.mem_map.mp hp
  by_cases h : q.1 = k
  · rw [if_pos h] at hpq
    rw [← hpq]
    simpa [hf] using hkeyed q hq
  · rw [if_neg h] at hpq
    rw [← hpq]
    exact hkeyed q hq

theorem add_avbox_result (device : RawDevice) (boxes : List (String × Bundle)) :
    add_avbox_mapping_entry device boxes = boxes ∨
    ∃ (k : String) (f : Bundle → Bundle), (∀ b, (f b).dut = b.dut) ∧
      add_avbox_mapping_entry device boxes =
        updateAssoc (if (lookupKey boxes k).isSome then boxes
          else boxes ++ [(k, { dut := k })]) k f := by
  unfold add_avbox_mapping_entry
  cases hinfo : device.avbox_info with
  | none => exact Or.inl rfl
  | some info =>
    dsimp only
    split
    · exact Or.inl rfl
    · split
      · exact Or.inl rfl
      · split
        · split
          · exact Or.inl rfl
          · refine Or.inr ⟨_, _, ?_, rfl⟩
            intro b
            rfl
        · split
          · exact Or.inl rfl
          · refine Or.inr ⟨_, _, ?_, rfl⟩
            intro b
            split
            · rfl
            · split
              · rfl
              · rfl

theorem add_avbox_wf (device : RawDevice) (boxes : List (String × Bundle))
    (hnodup : (boxes.map Prod.fst).Nodup) (hkeyed : ∀ p ∈ boxes, p.2.dut = p.1) :
    ((add_avbox_mapping_entry device boxes).map Prod.fst).Nodup ∧
      ∀ p ∈ add_avbox_mapping_entry device boxes, p.2.dut = p.1 := by
  rcases add_avbox_result device boxes with h | ⟨k, f, hf, h⟩
  · rw [h]; exact ⟨hnodup, hkeyed⟩
  · rw [h]
    have hb1 : (((if (lookupKey boxes k).isSome then boxes
        else boxes ++ [(k, { dut := k })]) : List (String × Bundle)).map Prod.fst).Nodup ∧
        ∀ p ∈ (if (lookupKey boxes k).isSome then boxes
          else boxes ++ [(k, { dut := k })]), p.2.dut = p.1 := by
      by_cases hl : (lookupKey boxes k).isSome
      · rw [if_pos hl]; exact ⟨hnodup, hkeyed⟩
      · rw [if_neg hl]
        have hnone : lookupKey boxes k = none := by
          cases hv : lookupKey boxes k
          · rfl
          · rw [hv] at hl; simp at hl
        have hmem := lookupKey_none_not_mem hnone
        constructor
        · simp only [List.map_append, List.map_cons, List.map_nil]
          rw [List.nodup_append]
          exact ⟨hnodup, List.nodup_singleton _, by simpa using hmem⟩
        · intro p hp
          rcases List.mem_append.mp hp with hh | hh
          · exact hkeyed p hh
          · simp only [List.mem_singleton] at hh
            rw [hh]
    exact updateAssoc_wf _ k f hf hb1.1 hb1.2

theorem computeAVBoxs_wf (devices : List RawDevice) :
    ((computeAVBoxs devices).map Prod.fst).Nodup ∧
      ∀ p ∈ computeAVBoxs devices, p.2.dut = p.1 := by
  unfold computeAVBoxs
  have hgen : ∀ (ds : List RawDevice) (acc : List (String × Bundle)),
      (acc.map Prod.fst).Nodup → (∀ p ∈ acc, p.2.dut = p.1) →
      ((ds.foldl (fun acc device =>
          if device.avbox_info.isSome then add_avbox_mapping_entry device acc
          else acc) acc).map Prod.fst).Nodup ∧
        ∀ p ∈ ds.foldl (fun acc device =>
          if device.avbox_info.isSome then add_avbox_mapping_entry device acc
          else acc) acc, p.2.dut = p.1 := by
    intro ds
    induction ds with
    | nil => intro acc h1 h2; exact ⟨h1, h2⟩
    | cons d rest ih =>
      intro acc h1 h2
      rw [List.foldl_cons]
      by_cases hd : d.avbox_info.isSome
      · rw [if_pos hd]
        obtain ⟨h1', h2'⟩ := add_avbox_wf d acc h1 h2
        exact ih _ h1' h2'
      · rw [if_neg hd]
        exact ih _ h1 h2
  exact hgen devices [] (by simp) (by simp)

/-!  Idempotence: the exception-layer folds.  -/

theorem inventory_fold_ok {tl : Option TeamsList} {boxes : List (String × Bundle)}
    {added_ids : Option String → Bool} {faultAt : Option Nat} :
    ∀ (ds : List RawDevice) (s sI : SessionState),
      List.foldlM (inventory_step tl boxes added_ids faultAt) s ds = .ok sI →
      sI.db.inventory = List.foldl (gstep tl) s.db.inventory ds ∧
      sI.db.avbox = s.db.avbox ∧ ∃ L, sI.db.ledger = s.db.ledger ++ L := by
  intro ds
  induction ds with
  | nil =>
    intro s sI h
    simp only [List.foldlM_nil] at h
    cases h
    exact ⟨rfl, rfl, ⟨[], by simp⟩⟩
  | cons d rest ih =>
    intro s sI h
    rw [List.foldlM_cons] at h
    cases hsd : inventory_step tl boxes added_ids faultAt s d with
    | error e => rw [hsd] at h; simp [Bind.bind, Except.bind] at h
    | ok s1 =>
      rw [hsd] at h
      simp only [Bind.bind, Except.bind] at h
      obtain ⟨hi, ha, L1, hl⟩ := inventory_step_ok hsd
      obtain ⟨hi2, ha2, L2, hl2⟩ := ih s1 sI h
      refine ⟨?_, ha2.trans ha, ⟨L1 ++ L2, ?_⟩⟩
      · rw [hi2, List.foldl_cons, hi]
      · rw [hl2, hl, List.append_assoc]

theorem inventory_fold_no_added {tl : Option TeamsList} {boxes : List (String × Bundle)}
    {added_ids : Option String → Bool} :
    ∀ (ds : List RawDevice) (s : SessionState),
      (∀ d ∈ ds, device_included_in_inventory d = true →
        added_ids (device_details_for_db d tl).udid = false) →
      ∃ sI, List.foldlM (inventory_step tl boxes added_ids none) s ds = .ok sI ∧
        sI.db.inventory = List.foldl (gstep tl) s.db.inventory ds ∧
        sI.db.avbox = s.db.avbox ∧ sI.db.ledger = s.db.ledger := by
  intro ds
  induction ds with
  | nil =>
    intro s _
    exact ⟨s, rfl, rfl, rfl, rfl⟩
  | cons d rest ih =>
    intro s hadded
    by_cases hinc : device_included_in_inventory d
    · have hstep : inventory_step tl boxes added_ids none s d =
          .ok ⟨⟨upsert_inventory s.db.inventory (device_details_for_db d tl),
            s.db.avbox, s.db.ledger⟩, s.opCount + 1⟩ := by
        simp only [inventory_step, hinc, if_true, tick_none_ok, Except.bind,
          hadded d (by simp) hinc, Bool.false_eq_true, if_false]
      obtain ⟨sI, hfold, hi, ha, hl⟩ :=
        ih ⟨⟨upsert_inventory s.db.inventory (device_details_for_db d tl),
          s.db.avbox, s.db.ledger⟩, s.opCount + 1⟩
          (fun d' hd' => hadded d' (by simp [hd']))
      refine ⟨sI, ?_, ?_, ha, hl⟩
      · rw [List.foldlM_cons, hstep]
        simpa [Bind.bind, Except.bind] using hfold
      · rw [hi, List.foldl_cons]
        have : gstep tl s.db.inventory d =
            upsert_inventory s.db.inventory (device_details_for_db d tl) := by
          unfold gstep; rw [if_pos hinc]
        rw [this]
    · have hstep : inventory_step tl boxes added_ids none s d = .ok s := by
        simp only [inventory_step, hinc, Bool.false_eq_true, if_false]
      obtain ⟨sI, hfold, hi, ha, hl⟩ := ih s (fun d' hd' => hadded d' (by simp [hd']))
      refine ⟨sI, ?_, ?_, ha, hl⟩
      · rw [List.foldlM_cons, hstep]
        simpa [Bind.bind, Except.bind] using hfold
      · rw [hi, List.foldl_cons]
        have : gstep tl s.db.inventory d = s.db.inventory := by
          unfold gstep; rw [if_neg hinc]
        rw [this]

theorem avbox_fold_ok {faultAt : Option Nat} :
    ∀ (boxes : List (String × Bundle)) (s sA : SessionState),
      List.foldlM (avbox_step faultAt) s boxes = .ok sA →
      sA.db.avbox = List.foldl astep s.db.avbox boxes ∧
      sA.db.inventory = s.db.inventory ∧ sA.db.ledger = s.db.ledger := by
  intro boxes
  induction boxes with
  | nil =>
    intro s sA h
    simp only [List.foldlM_nil] at h
    cases h
    exact ⟨rfl, rfl, rfl⟩
  | cons q rest ih =>
    intro s sA h
    rw [List.foldlM_cons] at h
    cases hsq : avbox_step faultAt s q with
    | error e => rw [hsq] at h; simp [Bind.bind, Except.bind] at h
    | ok s1 =>
      rw [hsq] at h
      simp only [Bind.bind, Except.bind] at h
      obtain ⟨ha, hi, hl⟩ := avbox_step_ok hsq
      obtain ⟨ha2, hi2, hl2⟩ := ih s1 sA h
      exact ⟨by rw [ha2, List.foldl_cons, ha], hi2.trans hi, hl2.trans hl⟩

theorem avbox_fold_none :
    ∀ (boxes : List (String × Bundle)) (s : SessionState),
      ∃ sA, List.foldlM (avbox_step none) s boxes = .ok sA := by
  intro boxes
  induction boxes with
  | nil => intro s; exact ⟨s, rfl⟩
  | cons q rest ih =>
    intro s
    have hstep : avbox_step none s q =
        .ok ⟨⟨s.db.inventory, astep s.db.avbox q, s.db.ledger⟩, s.opCount + 1⟩ := by
      simp only [avbox_step, tick_none_ok, Except.bind]
      rfl
    obtain ⟨sA, hA⟩ := ih ⟨⟨s.db.inventory, astep s.db.avbox q, s.db.ledger⟩, s.opCount + 1⟩
    refine ⟨sA, ?_⟩
    rw [List.foldlM_cons, hstep]
    simpa [Bind.bind, Except.bind] using hA

theorem removed_ids_nil (ids : List (Option String)) :
    ids.filter (fun uid => decide (uid ∉ ids)) = [] := by
  rw [List.filter_eq_nil_iff]
  intro a ha
  simp [ha]

/-- C3: running the full synchronization cycle twice with an unchanged
snapshot produces zero new ledger entries on the second run and leaves
every inventory row and every box-mapping row with exactly the same
field values as after the first run. -/
theorem sync_cycle_idempotent (db0 : DB) (snap : Option Snapshot) (tl : Option TeamsList) :
    (mainRun (mainRun db0 snap tl none) snap tl none).ledger
        = (mainRun db0 snap tl none).ledger ∧
    (mainRun (mainRun db0 snap tl none) snap tl none).inventory
        = (mainRun db0 snap tl none).inventory ∧
    (mainRun (mainRun db0 snap tl none) snap tl none).avbox
        = (mainRun db0 snap tl none).avbox := by
  suffices h : mainRun (mainRun db0 snap tl none) snap tl none = mainRun db0 snap tl none by
    rw [h]
    exact ⟨rfl, rfl, rfl⟩
  cases snap with
  | none => simp [mainRun, mainBody]
  | some sn =>
    by_cases hdev : sn.devices = []
    · simp [mainRun, mainBody, hdev]
    · cases hR : mainBody db0 (some sn) tl none with
      | error e =>
        simp [mainRun, hR]
      | ok s =>
        have hrun1 : mainRun db0 (some sn) tl none = s.db := by
          simp [mainRun, hR]
        rw [hrun1]
        simp only [mainBody] at hR
        rw [if_neg hdev, removed_ids_nil] at hR
        simp only [List.foldlM_nil, Except.bind] at hR
        obtain ⟨s2, h2, h3⟩ := except_bind_ok hR
        obtain ⟨hi2, ha2, L, hl2⟩ := inventory_fold_ok sn.devices _ _ h2
        obtain ⟨hav, hinv3, hled3⟩ := avbox_fold_ok _ _ _ h3
        have hsInv : s.db.inventory = List.foldl (gstep tl) db0.inventory sn.devices := by
          rw [hinv3, hi2]
        have hsAv : s.db.avbox =
            List.foldl astep db0.avbox (computeAVBoxs sn.devices) := by
          rw [hav, ha2]
        have hadded2 : ∀ d ∈ sn.devices, device_included_in_inventory d = true →
            decide ((device_details_for_db d tl).udid ∈
                sn.devices.map get_unique_device_id ∧
              (device_details_for_db d tl).udid ∉
                s.db.inventory.map (fun r => r.udid)) = false := by
          intro d hd hinc
          have hmem : (device_details_for_db d tl).udid ∈
              s.db.inventory.map (fun r => r.udid) := by
            rw [hsInv]
            exact writer_mem_uids_foldl tl sn.devices db0.inventory d hd hinc
          simp [hmem]
        obtain ⟨sI, hfold2, hi2', ha2', hl2'⟩ :=
          @inventory_fold_no_added tl (computeAVBoxs sn.devices)
            (fun uid => decide (uid ∈ sn.devices.map get_unique_device_id ∧
              uid ∉ s.db.inventory.map (fun r => r.udid)))
            sn.devices ⟨s.db, 0⟩ hadded2
        obtain ⟨sA, hA⟩ := avbox_fold_none (computeAVBoxs sn.devices) sI
        obtain ⟨hav', hinv', hled'⟩ := avbox_fold_ok _ _ _ hA
        have hbody2 : mainBody s.db (some sn) tl none = .ok sA := by
          simp only [mainBody]
          rw [if_neg hdev, removed_ids_nil]
          simp only [List.foldlM_nil, Except.bind, pure, Except.pure]
          rw [hfold2]
          exact hA
        have h1 : sA.db.inventory = s.db.inventory := by
          rw [hinv', hi2']
          show List.foldl (gstep tl) (SessionState.mk s.db 0).db.inventory sn.devices
            = s.db.inventory
          rw [show (SessionState.mk s.db 0).db.inventory = s.db.inventory from rfl, hsInv,
            foldl_gstep_replay tl sn.devices db0.inventory]
        have hled2 : sA.db.ledger = s.db.ledger := by
          rw [hled', hl2']
        have h3' : sA.db.avbox = s.db.avbox := by
          obtain ⟨hnodup, hkeyed⟩ := computeAVBoxs_wf sn.devices
          rw [hav', ha2']
          show List.foldl astep (SessionState.mk s.db 0).db.avbox (computeAVBoxs sn.devices)
            = s.db.avbox
          rw [show (SessionState.mk s.db 0).db.avbox = s.db.avbox from rfl, hsAv,
            foldl_astep_replay (computeAVBoxs sn.devices) db0.avbox hnodup hkeyed]
        have hAeq : sA.db = s.db :=
          calc sA.db = ⟨sA.db.inventory, sA.db.avbox, sA.db.ledger⟩ := rfl
            _ = ⟨s.db.inventory, s.db.avbox, s.db.ledger⟩ := by rw [h1, hled2, h3']
            _ = s.db := rfl
        simp [mainRun, hbody2, hAeq]

end DeviceSync
